import Mathlib

/-
Verification of the multi-stage cross-database query pipeline engine of
MeshDB (src/app/query_handler.py) against its natural-language specification.

The Python code is shallowly embedded: Python dicts become insertion-ordered
association lists, Python exceptions become `Except` errors, scalar values
become the `Value` inductive, and store adapters (external I/O) are abstract
parameters.  Line numbers in doc comments refer to src/app/query_handler.py.
-/

namespace MeshDB

/-- Scalar values observed in row records: integers (also covering the
numeric types `int`/`float`/`Decimal` of the source, whose only relevant
behaviour here is being rendered bare by the formatter), strings, booleans
and Python `None`. -/
inductive Value where
  | int (n : Int)
  | str (s : String)
  | bool (b : Bool)
  | null
deriving DecidableEq

/-- A row record: a Python dict from field name to scalar, modelled as an
insertion-ordered association list. -/
abbrev Row := List (String × Value)

/-- Python `str(...)` on a scalar value. -/
def pyStr : Value → String
  | .int n => toString n
  | .str s => s
  | .bool true => "True"
  | .bool false => "False"
  | .null => "None"

/-- Python `str(d.get(key))`: a missing key yields `None`, rendered "None". -/
def pyStrGet : Option Value → String
  | none => "None"
  | some v => pyStr v

/-- Lookup in a Python dict modelled as an association list (first match,
matching dict key uniqueness). -/
def dictGet {K V : Type} [DecidableEq K] : List (K × V) → K → Option V
  | [], _ => none
  | (k', v) :: t, k => if k' = k then some v else dictGet t k

/-- Python dict assignment `d[k] = v`: replaces the value at the first
occurrence of `k` keeping its position, else appends a new entry. -/
def dictInsert {K V : Type} [DecidableEq K] : List (K × V) → K → V → List (K × V)
  | [], k, v => [(k, v)]
  | (k', v') :: t, k, v => if k' = k then (k', v) :: t else (k', v') :: dictInsert t k v

/-- Python `del d[k]`: removes the entry (all entries, harmless under the
dict uniqueness invariant) for `k`. -/
def dictErase {K V : Type} [DecidableEq K] : List (K × V) → K → List (K × V)
  | [], _ => []
  | (k', v) :: t, k => if k' = k then dictErase t k else (k', v) :: dictErase t k

theorem dictGet_dictInsert {K V : Type} [DecidableEq K]
    (d : List (K × V)) (k k' : K) (v : V) :
    dictGet (dictInsert d k v) k' = if k = k' then some v else dictGet d k' := by
  induction d with
  | nil => simp [dictInsert, dictGet]
  | cons p t ih =>
    obtain ⟨k₀, v₀⟩ := p
    by_cases h0 : k₀ = k
    · subst h0
      by_cases h1 : k₀ = k'
      · subst h1; simp [dictInsert, dictGet]
      · simp [dictInsert, dictGet, h1]
    · by_cases h1 : k₀ = k'
      · subst h1
        have h0' : ¬ k = k₀ := fun h => h0 h.symm
        simp [dictInsert, dictGet, h0, h0']
      · simp [dictInsert, dictGet, h0, h1, ih]

theorem dictGet_dictErase_self {K V : Type} [DecidableEq K]
    (d : List (K × V)) (k : K) : dictGet (dictErase d k) k = none := by
  induction d with
  | nil => simp [dictErase, dictGet]
  | cons p t ih =>
    obtain ⟨k₀, v₀⟩ := p
    by_cases h0 : k₀ = k
    · simp [dictErase, h0, ih]
    · simp [dictErase, dictGet, h0, ih]

/-- A value passed to the formatter: a scalar or a Python list of scalars
(stage result sequences are lists). -/
inductive QVal where
  | scalar (v : Value)
  | list (vs : List Value)
deriving DecidableEq

/-- Python `isinstance(v, (int, float, decimal.Decimal))`.  In Python,
`bool` is a subclass of `int`, so booleans satisfy this test. -/
def isNumericInstance : Value → Bool
  | .int _ => true
  | .bool _ => true
  | _ => false

/-- Rendering of one element inside `format_value_for_query`
(lines 452–455 / 463–466 / 469–471): numeric instances via `str(v)`,
everything else single-quoted. -/
def formatScalar (v : Value) : String :=
  if isNumericInstance v then pyStr v else "'" ++ pyStr v ++ "'"

/-- NLMDQA.format_value_for_query (lines 445–471): lists render for
"neo4j" as a bracketed comma-separated list, for any other database type
as a bare comma-separated list; scalars render via the same
isinstance-based test. -/
def format_value_for_query (value : QVal) (database_type : String) : String :=
  match value with
  | .list vs =>
    if database_type = "neo4j" then
      "[" ++ String.intercalate ", " (vs.map formatScalar) ++ "]"
    else
      String.intercalate ", " (vs.map formatScalar)
  | .scalar v => formatScalar v

/-- C7, counterexample.  The claim states that every non-numeric scalar
type, including booleans, renders as a quoted literal.  In the source,
`isinstance(True, int)` holds because Python's `bool` is a subclass of
`int`, so `format_value_for_query(True, "postgresql")` is the bare
numeral-style rendering "True", not the quoted "'True'". -/
theorem c7_counterexample :
    format_value_for_query (.scalar (.bool true)) "postgresql" = "True" ∧
    format_value_for_query (.scalar (.bool true)) "postgresql" ≠
      "'" ++ pyStr (.bool true) ++ "'" := by
  constructor
  · rfl
  · decide

/-- C7, amended.  The Value Formatter is a pure function of the value and
store kind: integer and boolean scalars (the Python `isinstance` numeric
test also accepts booleans) render bare, strings and None render quoted;
a sequence renders for the graph store ("neo4j") as a bracketed
comma-separated list of rendered scalars and for every other store kind
as a bare comma-separated list. -/
theorem c7_value_formatter :
    (∀ (n : Int) (d : String),
      format_value_for_query (.scalar (.int n)) d = toString n) ∧
    (∀ (b : Bool) (d : String),
      format_value_for_query (.scalar (.bool b)) d = if b then "True" else "False") ∧
    (∀ (s d : String),
      format_value_for_query (.scalar (.str s)) d = "'" ++ s ++ "'") ∧
    (∀ d : String, format_value_for_query (.scalar .null) d = "'None'") ∧
    (∀ vs : List Value,
      format_value_for_query (.list vs) "neo4j" =
        "[" ++ String.intercalate ", " (vs.map formatScalar) ++ "]") ∧
    (∀ (vs : List Value) (d : String), d ≠ "neo4j" →
      format_value_for_query (.list vs) d =
        String.intercalate ", " (vs.map formatScalar)) := by
  refine ⟨fun n d => rfl, fun b d => by cases b <;> rfl, fun s d => rfl,
          fun d => rfl, fun vs => by simp [format_value_for_query],
          fun vs d hd => by simp [format_value_for_query, hd]⟩

/-- C7, witness for the amended theorem: evaluation of the formatter on a
concrete mixed list for the relational store. -/
theorem c7_value_formatter_witness :
    format_value_for_query (.list [.int 7, .str "a"]) "postgresql" = "7, 'a'" := by
  have h := c7_value_formatter.2.2.2.2.2 [.int 7, .str "a"] "postgresql" (by decide)
  rw [h]
  rfl

/-- Substring relation on character lists: Python's `pat in hay` for
strings (an empty pattern is contained in everything). -/
def containsSub (pat : List Char) : List Char → Bool
  | [] => pat.isEmpty
  | c :: t => pat.isPrefixOf (c :: t) || containsSub pat t

/-- Python's `pat in hay` on strings. -/
def pyIn (pat hay : String) : Bool := containsSub pat.toList hay.toList

/-- Outcome of the relational adapter: `noop` stands for the guard's early
`return []` (no store contact), `store q` stands for the path that opens a
connection and executes `q` against PostgreSQL (external I/O). -/
inductive PgOutcome where
  | noop
  | store (q : String)
deriving DecidableEq

/-- QueryExecutor.execute_postgres_query (lines 291–310): if the query
contains the literal substring "IN ()" or "IN ( )" it returns `[]` without
contacting the store; otherwise it executes the query against the store. -/
def execute_postgres_query (query : String) : PgOutcome :=
  if pyIn "IN ()" query || pyIn "IN ( )" query then .noop else .store query

theorem containsSub_of_isPre {pat l : List Char}
    (h : pat.isPrefixOf l = true) : containsSub pat l = true := by
  cases l with
  | nil =>
    cases pat with
    | nil => rfl
    | cons c t => simp [List.isPrefixOf] at h
  | cons c t => simp [containsSub, h]

theorem containsSub_append_left {pat l : List Char} (xs : List Char)
    (h : containsSub pat l = true) : containsSub pat (xs ++ l) = true := by
  induction xs with
  | nil => simp [h]
  | cons x xs ih => simp [containsSub, ih]

theorem containsSub_self_append (pat ys : List Char) (hne : pat ≠ []) :
    containsSub pat (pat ++ ys) = true := by
  have hp : pat.isPrefixOf (pat ++ ys) = true := by
    simp [List.isPrefixOf_iff_prefix]
  cases pat with
  | nil => exact absurd rfl hne
  | cons c t =>
    simp only [List.cons_append] at hp ⊢
    simp [containsSub, hp]

theorem string_toList_append (a b : String) :
    (a ++ b).toList = a.toList ++ b.toList := String.data_append a b

/-- Spec-side notion (for C4), following the spec's words: the query
contains a membership clause whose substituted literal list is
syntactically empty, i.e. an "IN (" … ")" whose body is only whitespace. -/
def emptyMembershipSpec (q : String) : Prop :=
  ∃ a s b : List Char, (∀ c ∈ s, c = ' ') ∧
    q.toList = a ++ ("IN (".toList ++ s ++ [')']) ++ b

/-- C4, counterexample.  The claim quantifies over every relational query
whose substituted membership predicate is syntactically empty, but the
source's guard (line 293) is a check for the two literal substrings
"IN ()" and "IN ( )".  A substituted empty IN-clause written with two
spaces, as produced by the template `IN ( {placeholder} )` after an
empty-list substitution, has an empty membership predicate yet is passed
on to the store rather than returning zero rows. -/
theorem c4_counterexample :
    emptyMembershipSpec "SELECT m.id FROM movies m WHERE m.id IN (  )" ∧
    execute_postgres_query "SELECT m.id FROM movies m WHERE m.id IN (  )" ≠
      PgOutcome.noop := by
  refine ⟨⟨"SELECT m.id FROM movies m WHERE m.id ".toList, [' ', ' '], [],
    by decide, by decide⟩, by decide⟩

/-- C4, amended.  The relational adapter's no-op guard is the literal
substring test: whenever the query contains the exact substring "IN ()"
or "IN ( )" — in particular whenever an `IN ({placeholder})` or
`IN ( {placeholder})` template had its placeholder replaced by the
formatting of an empty value list, which renders as the empty string —
the adapter returns zero rows without contacting the store.  Empty
membership clauses spelled any other way are handed to the store. -/
theorem c4_empty_membership_guard :
    (format_value_for_query (.list []) "postgresql" = "") ∧
    (∀ a b : String,
      execute_postgres_query
        (a ++ ("IN (" ++ format_value_for_query (.list []) "postgresql" ++ ")") ++ b) =
        PgOutcome.noop) ∧
    (∀ a b : String,
      execute_postgres_query
        (a ++ ("IN ( " ++ format_value_for_query (.list []) "postgresql" ++ ")") ++ b) =
        PgOutcome.noop) := by
  refine ⟨rfl, fun a b => ?_, fun a b => ?_⟩
  · have h1 : pyIn "IN ()"
        (a ++ ("IN (" ++ format_value_for_query (.list []) "postgresql" ++ ")") ++ b) = true := by
      show containsSub "IN ()".toList _ = true
      rw [string_toList_append, string_toList_append, List.append_assoc]
      exact containsSub_append_left a.toList
        (containsSub_self_append _ b.toList (by decide))
    simp [execute_postgres_query, h1]
  · have h1 : pyIn "IN ( )"
        (a ++ ("IN ( " ++ format_value_for_query (.list []) "postgresql" ++ ")") ++ b) = true := by
      show containsSub "IN ( )".toList _ = true
      rw [string_toList_append, string_toList_append, List.append_assoc]
      exact containsSub_append_left a.toList
        (containsSub_self_append _ b.toList (by decide))
    simp [execute_postgres_query, h1]

/-- Stringified merge-key tuple of a record:
`tuple(str(item.get(key)) for key in merge_keys)` (lines 360, 365). -/
def strTuple (merge_keys : List String) (item : Row) : List String :=
  merge_keys.map (fun k => pyStrGet (dictGet item k))

/-- Python dict union `{**a, **b}` (line 367): `a`'s entries in order with
values overridden by `b` on shared keys, then `b`'s new keys appended in
`b`'s order. -/
def pyDictMerge (a b : Row) : Row :=
  b.foldl (fun d kv => dictInsert d kv.1 kv.2) a

/-- DataMerger._merge_two_datasets (lines 353–370): build a dict keyed by
the stringified merge-key tuple of each record of `data2` (a Python dict
comprehension: a later record with the same tuple overwrites an earlier
one), then keep each `data1` record whose tuple is present, merged
`{**item1, **item2}`, in `data1`'s order. -/
def merge_two_datasets (data1 data2 : List Row) (merge_keys : List String) : List Row :=
  let data2_dict := data2.foldl (fun d item => dictInsert d (strTuple merge_keys item) item) []
  data1.foldl (fun merged item1 =>
    match dictGet data2_dict (strTuple merge_keys item1) with
    | some item2 => merged ++ [pyDictMerge item1 item2]
    | none => merged) []

/-- Validation test of merge_results (lines 333–338) for one named result
set: the set is non-empty and its first record lacks some merge key. -/
def stageMissingKeys (rows : List Row) (merge_keys : List String) : Bool :=
  match rows with
  | [] => false
  | r :: _ => merge_keys.any (fun k => (dictGet r k).isNone)

/-- DataMerger.merge_results (lines 327–351): empty input yields `[]`; if
any non-empty named result set's first record lacks a merge key the merge
returns `[]`; otherwise the sets are folded pairwise through
`merge_two_datasets` starting from the first set, in mapping order. -/
def merge_results (results : List (String × List Row)) (merge_keys : List String) :
    List Row :=
  if results.any (fun p => stageMissingKeys p.2 merge_keys) then []
  else
    match results with
    | [] => []
    | (_, first) :: rest =>
      rest.foldl (fun acc p => merge_two_datasets acc p.2 merge_keys) first

/-- Last record of a list whose stringified merge-key tuple equals `t`
(the record a Python dict comprehension keyed on tuples retains). -/
def lastMatch (merge_keys : List String) (t : List String) : List Row → Option Row
  | [] => none
  | r :: l =>
    match lastMatch merge_keys t l with
    | some y => some y
    | none => if strTuple merge_keys r = t then some r else none

theorem dictGet_foldl_insert (merge_keys : List String) (t : List String)
    (l : List Row) (d : List (List String × Row)) :
    dictGet (l.foldl (fun d item => dictInsert d (strTuple merge_keys item) item) d) t =
      match lastMatch merge_keys t l with
      | some y => some y
      | none => dictGet d t := by
  induction l generalizing d with
  | nil => simp [lastMatch]
  | cons r l ih =>
    simp only [List.foldl_cons, lastMatch]
    rw [ih]
    cases h : lastMatch merge_keys t l with
    | some y => simp
    | none =>
      simp only [dictGet_dictInsert]
      by_cases ht : strTuple merge_keys r = t
      · simp [ht]
      · simp [ht]

theorem lastMatch_isSome_iff (merge_keys : List String) (t : List String)
    (l : List Row) :
    (lastMatch merge_keys t l).isSome ↔ ∃ r ∈ l, strTuple merge_keys r = t := by
  induction l with
  | nil => simp [lastMatch]
  | cons r l ih =>
    simp only [lastMatch]
    cases h : lastMatch merge_keys t l with
    | some y =>
      simp only [Option.isSome_some, true_iff]
      have : ∃ x ∈ l, strTuple merge_keys x = t := by
        rw [← ih, h]; simp
      obtain ⟨x, hx, hxt⟩ := this
      exact ⟨x, List.mem_cons_of_mem _ hx, hxt⟩
    | none =>
      by_cases ht : strTuple merge_keys r = t
      · simp [ht]
      · simp only [ht, if_false]
        rw [h] at ih
        simp only [Option.isSome_none, Bool.false_eq_true, false_iff] at ih ⊢
        intro hcon
        obtain ⟨x, hx, hxt⟩ := hcon
        rcases List.mem_cons.mp hx with rfl | hx
        · exact ht hxt
        · exact ih ⟨x, hx, hxt⟩

theorem mergeLoop_eq_filterMap (d : List (List String × Row))
    (merge_keys : List String) (l : List Row) (acc : List Row) :
    l.foldl (fun merged item1 =>
      match dictGet d (strTuple merge_keys item1) with
      | some item2 => merged ++ [pyDictMerge item1 item2]
      | none => merged) acc =
    acc ++ l.filterMap (fun item1 =>
      (dictGet d (strTuple merge_keys item1)).map (pyDictMerge item1)) := by
  induction l generalizing acc with
  | nil => simp
  | cons r l ih =>
    simp only [List.foldl_cons, List.filterMap_cons]
    cases h : dictGet d (strTuple merge_keys r) with
    | some item2 => simp [h, ih, List.append_assoc]
    | none => simp [h, ih]

/-- C6.  Merging two result sets has inner-join semantics: the result is
exactly the accumulator records whose stringified merge-key tuple occurs
in the second set (in the accumulator's original order), each merged
record being the Python dict union with the second set's fields
overriding same-named accumulator fields (with the matching second-set
record being the last one carrying that tuple); and on the spec's
concrete example A = [\x7bid:1,x:"a"\x7d, \x7bid:2,x:"b"\x7d],
B = [\x7bid:2,y:"c"\x7d, \x7bid:3,y:"d"\x7d] merged on ["id"] the result
is exactly [\x7bid:2,x:"b",y:"c"\x7d]. -/
theorem c6_merge_inner_join :
    (∀ (d1 d2 : List Row) (ks : List String),
      merge_two_datasets d1 d2 ks =
        d1.filterMap (fun r => (lastMatch ks (strTuple ks r) d2).map (pyDictMerge r))) ∧
    (∀ (d2 : List Row) (ks : List String) (r : Row),
      (lastMatch ks (strTuple ks r) d2).isSome ↔
        ∃ it ∈ d2, strTuple ks it = strTuple ks r) ∧
    (merge_two_datasets
        [[("id", .int 1), ("x", .str "a")], [("id", .int 2), ("x", .str "b")]]
        [[("id", .int 2), ("y", .str "c")], [("id", .int 3), ("y", .str "d")]]
        ["id"] =
      [[("id", Value.int 2), ("x", Value.str "b"), ("y", Value.str "c")]]) ∧
    (merge_results
        [("postgresql", [[("id", .int 1), ("x", .str "a")], [("id", .int 2), ("x", .str "b")]]),
         ("neo4j", [[("id", .int 2), ("y", .str "c")], [("id", .int 3), ("y", .str "d")]])]
        ["id"] =
      [[("id", Value.int 2), ("x", Value.str "b"), ("y", Value.str "c")]]) := by
  refine ⟨fun d1 d2 ks => ?_, fun d2 ks r => lastMatch_isSome_iff ks _ d2, by decide, by decide⟩
  unfold merge_two_datasets
  rw [mergeLoop_eq_filterMap]
  simp only [List.nil_append]
  apply List.filterMap_congr
  intro r _
  rw [dictGet_foldl_insert]
  cases lastMatch ks (strTuple ks r) d2 with
  | some y => simp
  | none => simp [dictGet]

/-- C5.  If some named result set is non-empty and its first record lacks
one of the merge keys, merge_results returns the empty list (fail-closed;
the source raises nothing on this path). -/
theorem c5_merge_fail_closed (results : List (String × List Row))
    (merge_keys : List String)
    (h : ∃ p ∈ results, ∃ r rs, p.2 = r :: rs ∧ ∃ k ∈ merge_keys, dictGet r k = none) :
    merge_results results merge_keys = [] := by
  obtain ⟨p, hp, r, rs, hrow, k, hk, hmiss⟩ := h
  have hstage : stageMissingKeys p.2 merge_keys = true := by
    rw [hrow]
    simp only [stageMissingKeys, List.any_eq_true]
    exact ⟨k, hk, by simp [hmiss]⟩
  have hany : results.any (fun p => stageMissingKeys p.2 merge_keys) = true :=
    List.any_eq_true.mpr ⟨p, hp, hstage⟩
  simp [merge_results, hany]

/-- C5, witness: a concrete pair of result sets where the second set's
first record lacks the merge key "id". -/
theorem c5_merge_fail_closed_witness :
    merge_results
      [("postgresql", [[("id", Value.int 1)]]), ("mongodb", [[("x", Value.int 2)]])]
      ["id"] = [] := by
  apply c5_merge_fail_closed
  refine ⟨("mongodb", [[("x", Value.int 2)]]), by decide, [("x", Value.int 2)], [], rfl,
    "id", by decide, by decide⟩

/-- A pipeline's final value as cached and returned: `test_final_results`
is `None` when the plan has zero stages, else the last stage's record
list. -/
abbrev PyRes := Option (List Row)

/-- CacheManager state (lines 372–400): the value dict and the timestamp
dict, updated in lockstep.  Time is modelled as a natural number passed
explicitly where the source calls `self.time()`. -/
structure CacheState where
  cache : List (String × PyRes)
  timestamps : List (String × Nat)
deriving DecidableEq

/-- CacheManager.cache_ttl (line 376). -/
def cache_ttl : Nat := 3600

/-- CacheManager._get_cache_key (lines 398–400): Python's deterministic
per-process `hash(query)` is modelled by the query text itself inside the
key string. -/
def get_cache_key (query : String) : String := "nlmdqa:query:" ++ query

/-- CacheManager.get_cached_result (lines 380–390): a present entry whose
age exceeds the TTL is deleted from both dicts and reported as a miss;
a fresh entry is returned as-is; an absent key is a miss.  (The source
indexes `timestamps[key]` unconditionally after the `key in cache` test;
the two dicts are always updated together, so both lookups succeed or
fail together.) -/
def get_cached_result (st : CacheState) (now : Nat) (query : String) :
    Option PyRes × CacheState :=
  let k := get_cache_key query
  match dictGet st.cache k, dictGet st.timestamps k with
  | some v, some ts =>
    if now - ts > cache_ttl then
      (none, { cache := dictErase st.cache k, timestamps := dictErase st.timestamps k })
    else (some v, st)
  | _, _ => (none, st)

/-- CacheManager.cache_result (lines 392–396): unconditional insert of
the value and of the current time as the entry's timestamp. -/
def cache_result (st : CacheState) (now : Nat) (query : String) (result : PyRes) :
    CacheState :=
  let k := get_cache_key query
  { cache := dictInsert st.cache k result, timestamps := dictInsert st.timestamps k now }

/-- C8.  Cache round trip: a store at time t followed by a lookup at time
t' with t' - t ≤ TTL returns exactly the stored result and leaves the
state unchanged; a lookup at time t'' with t'' - t > TTL is a miss that
evicts the entry, after which lookups at every later time miss and do not
change the state further (until a new store); and a store
unconditionally (re)inserts the value and resets the timestamp to the
store time. -/
theorem c8_cache_round_trip (st : CacheState) (t t' t'' : Nat) (q : String) (r : PyRes) :
    ((t' - t ≤ cache_ttl) →
      get_cached_result (cache_result st t q r) t' q = (some r, cache_result st t q r)) ∧
    ((t'' - t > cache_ttl) →
      (get_cached_result (cache_result st t q r) t'' q).1 = none ∧
      ∀ t₃ : Nat,
        get_cached_result ((get_cached_result (cache_result st t q r) t'' q).2) t₃ q =
          (none, (get_cached_result (cache_result st t q r) t'' q).2)) ∧
    (dictGet (cache_result st t q r).cache (get_cache_key q) = some r ∧
     dictGet (cache_result st t q r).timestamps (get_cache_key q) = some t) := by
  have hc : dictGet (cache_result st t q r).cache (get_cache_key q) = some r := by
    simp [cache_result, dictGet_dictInsert]
  have hts : dictGet (cache_result st t q r).timestamps (get_cache_key q) = some t := by
    simp [cache_result, dictGet_dictInsert]
  refine ⟨fun hfresh => ?_, fun hexp => ?_, hc, hts⟩
  · have hnot : ¬ (t' - t > cache_ttl) := by omega
    simp [get_cached_result, hc, hts, hnot]
  · have hmiss : get_cached_result (cache_result st t q r) t'' q =
        (none, { cache := dictErase (cache_result st t q r).cache (get_cache_key q),
                 timestamps := dictErase (cache_result st t q r).timestamps (get_cache_key q) }) := by
      simp [get_cached_result, hc, hts, hexp]
    refine ⟨by rw [hmiss], fun t₃ => ?_⟩
    rw [hmiss]
    simp [get_cached_result, dictGet_dictErase_self]

/-- C8, witness: storing at time 0 and looking up at times 3600 (fresh)
and 3601 (expired) on an initially empty cache. -/
theorem c8_cache_round_trip_witness :
    (get_cached_result (cache_result ⟨[], []⟩ 0 "q" (some [[("id", Value.int 1)]])) 3600 "q"
      = (some (some [[("id", Value.int 1)]]),
         cache_result ⟨[], []⟩ 0 "q" (some [[("id", Value.int 1)]]))) ∧
    (get_cached_result (cache_result ⟨[], []⟩ 0 "q" (some [[("id", Value.int 1)]])) 3601 "q").1
      = none := by
  refine ⟨(c8_cache_round_trip ⟨[], []⟩ 0 3600 3601 "q" _).1 (by decide),
          ((c8_cache_round_trip ⟨[], []⟩ 0 3600 3601 "q" _).2.1 (by decide)).1⟩

/-- Truthiness of the controller's `cached_result` local (line 480): the
lookup returned no entry, a cached `None`, or a cached empty list are all
falsy; only a cached non-empty list is truthy. -/
def pyTruthy : Option PyRes → Bool
  | some (some (_ :: _)) => true
  | _ => false

/-- Cache interaction of NLMDQA.process_query (lines 479–482 and
533–534): look up the request text; if the cached value is truthy return
it, otherwise acquire a plan, run the pipeline (its final value is the
parameter `pipeline_res`, abstracting lines 484–531), cache that value
and return it.  The returned flag records whether plan acquisition and
pipeline execution ran. -/
def process_query_cache_step (st : CacheState) (now : Nat) (query : String)
    (pipeline_res : PyRes) : PyRes × CacheState × Bool :=
  let (cached, st₁) := get_cached_result st now query
  if pyTruthy cached then (cached.getD none, st₁, false)
  else (pipeline_res, cache_result st₁ now query pipeline_res, true)

/-- C10.  A run whose final value is falsy (empty record list, or None
from a zero-stage plan) is cached, yet an identical request within the
TTL treats the cached falsy value as a miss: the entry is present in the
cache, but the controller re-acquires a plan and re-executes the
pipeline, returning the fresh pipeline value rather than the cached
one. -/
theorem c10_falsy_cache_reexecutes (st : CacheState) (t t' : Nat) (q : String)
    (res res' : PyRes) (hres : res = some [] ∨ res = none)
    (hfresh : t' - t ≤ cache_ttl) :
    dictGet (cache_result st t q res).cache (get_cache_key q) = some res ∧
    (process_query_cache_step (cache_result st t q res) t' q res').2.2 = true ∧
    (process_query_cache_step (cache_result st t q res) t' q res').1 = res' := by
  have hc : dictGet (cache_result st t q res).cache (get_cache_key q) = some res := by
    simp [cache_result, dictGet_dictInsert]
  have hts : dictGet (cache_result st t q res).timestamps (get_cache_key q) = some t := by
    simp [cache_result, dictGet_dictInsert]
  have hnot : ¬ (t' - t > cache_ttl) := by omega
  have hlook : get_cached_result (cache_result st t q res) t' q =
      (some res, cache_result st t q res) := by
    simp [get_cached_result, hc, hts, hnot]
  have hfalsy : pyTruthy (some res) = false := by
    rcases hres with rfl | rfl <;> rfl
  refine ⟨hc, ?_, ?_⟩ <;> simp [process_query_cache_step, hlook, hfalsy]

/-- C10, witness: an empty-list result cached at time 0 is re-computed at
time 5, the second run returning the (here non-empty) fresh pipeline
value. -/
theorem c10_falsy_cache_reexecutes_witness :
    (process_query_cache_step (cache_result ⟨[], []⟩ 0 "q" (some [])) 5 "q"
      (some [[("id", Value.int 1)]])).2.2 = true := by
  exact (c10_falsy_cache_reexecutes ⟨[], []⟩ 0 5 "q" (some [])
    (some [[("id", Value.int 1)]]) (Or.inl rfl) (by decide)).2.1

/-- MAX_RETRIES constant of NLMDQA.process_query (line 475). -/
def MAX_RETRIES : Nat := 3

/-- Error feedback text built in the except-branch (lines 545–552); the
f-string's leading indentation is whitespace-normalized here. -/
def mkErrorFeedback (error_message : String) : String :=
  "Previous attempt failed with error: " ++ error_message ++
  "\nPlease fix the query and try again. Common issues to check:" ++
  "\n- Ensure JSON formatting is correct" ++
  "\n- Verify database names are correct ('postgresql', 'neo4j', 'mongodb')" ++
  "\n- Check that all referenced columns exist" ++
  "\n- Verify syntax for the specific database being queried"

/-- Terminal failure message (line 558). -/
def terminalFailureMsg (error_message : String) : String :=
  "Failed to process query after " ++ toString MAX_RETRIES ++
  " attempts. Last error: " ++ error_message

/-- Retry loop of NLMDQA.process_query (lines 473–558).  One `attempt`
call abstracts the whole try-block of one invocation (cache check, plan
acquisition, pipeline execution), given the current retry_count and
error_feedback.  The source recurses while `retry_count < MAX_RETRIES`;
this embedding carries `remaining = MAX_RETRIES - retry_count`, so
`remaining = 0` exactly when the guard fails.  Besides the final outcome
it returns the trace of attempts made, each with the feedback passed to
plan acquisition. -/
def pq_go {R : Type} (attempt : Nat → String → Except String R) :
    Nat → Nat → String → Except String R × List (Nat × String)
  | remaining, retry_count, error_feedback =>
    match attempt retry_count error_feedback, remaining with
    | .ok r, _ => (.ok r, [(retry_count, error_feedback)])
    | .error msg, 0 => (.error (terminalFailureMsg msg), [(retry_count, error_feedback)])
    | .error msg, rem + 1 =>
      let p := pq_go attempt rem (retry_count + 1) (mkErrorFeedback msg)
      (p.1, (retry_count, error_feedback) :: p.2)

/-- A request's processing as the caller sees it: process_query with
retry_count = 0 and empty error_feedback (line 473 defaults). -/
def process_query_retries {R : Type} (attempt : Nat → String → Except String R) :
    Except String R × List (Nat × String) :=
  pq_go attempt MAX_RETRIES 0 ""

/-- C3.  If every attempt fails (attempt n failing with message err n),
the controller makes exactly MAX_RETRIES + 1 = 4 attempts — the first
with empty feedback, each retry re-invoking plan acquisition with
structured feedback naming the previous attempt's error — and surfaces a
single terminal failure naming the last attempt's error; no intermediate
error appears in the outcome. -/
theorem c3_retry_ceiling {R : Type} (attempt : Nat → String → Except String R)
    (err : Nat → String) (h : ∀ n fb, attempt n fb = .error (err n)) :
    process_query_retries attempt =
      (.error (terminalFailureMsg (err MAX_RETRIES)),
       [(0, ""), (1, mkErrorFeedback (err 0)), (2, mkErrorFeedback (err 1)),
        (3, mkErrorFeedback (err 2))]) ∧
    (process_query_retries attempt).2.length = MAX_RETRIES + 1 := by
  have hrun : process_query_retries attempt =
      (.error (terminalFailureMsg (err MAX_RETRIES)),
       [(0, ""), (1, mkErrorFeedback (err 0)), (2, mkErrorFeedback (err 1)),
        (3, mkErrorFeedback (err 2))]) := by
    show pq_go attempt 3 0 "" = _
    simp [pq_go, h, MAX_RETRIES]
  exact ⟨hrun, by rw [hrun]; rfl⟩

/-- C3, witness: every attempt fails with a message naming its index. -/
theorem c3_retry_ceiling_witness :
    process_query_retries (R := Unit) (fun n _ => .error (toString n)) =
      (.error (terminalFailureMsg "3"),
       [(0, ""), (1, mkErrorFeedback "0"), (2, mkErrorFeedback "1"),
        (3, mkErrorFeedback "2")]) :=
  (c3_retry_ceiling (fun n _ => .error (toString n)) (fun n => toString n)
    (fun _ _ => rfl)).1

/-- Python exceptions arising in the executor loop. -/
inductive PyExc where
  | attributeError
  | keyError
  | unboundLocalError
deriving DecidableEq

/-- Python subscript `r[key]` on a row dict: raises KeyError when the key
is absent. -/
def rowIndex (r : Row) (k : String) : Except PyExc Value :=
  match dictGet r k with
  | some v => .ok v
  | none => .error .keyError

/-- Evaluation of a Python comprehension whose element expression may
raise: stops at the first raising element. -/
def mapExcept {α β : Type} (f : α → Except PyExc β) : List α → Except PyExc (List β)
  | [] => .ok []
  | x :: l =>
    match f x with
    | .error e => .error e
    | .ok b =>
      match mapExcept f l with
      | .error e => .error e
      | .ok bs => .ok (b :: bs)

/-- Stage Result Table recording (lines 527–529):
`\x7bkey: [r[key] for r in results] for key in stage['output_keys']\x7d`.
Each declared output key maps to the column of `r[key]` values over the
returned rows in row order; `r[key]` raises KeyError when a row lacks the
key. -/
def recordStage (results : List Row) (output_keys : List String) :
    Except PyExc (List (String × List Value)) :=
  mapExcept (fun k =>
    match mapExcept (fun r => rowIndex r k) results with
    | .error e => .error e
    | .ok vs => .ok (k, vs)) output_keys

theorem mapExcept_rowIndex_ok (k : String) (results : List Row)
    (h : ∀ r ∈ results, (dictGet r k).isSome) :
    mapExcept (fun r => rowIndex r k) results =
      .ok (results.map (fun r => (dictGet r k).getD .null)) := by
  induction results with
  | nil => rfl
  | cons r l ih =>
    have hr := h r (List.mem_cons_self r l)
    obtain ⟨v, hv⟩ := Option.isSome_iff_exists.mp hr
    have hl := ih (fun r' hr' => h r' (List.mem_cons_of_mem _ hr'))
    simp only [mapExcept]
    rw [show rowIndex r k = Except.ok v by simp [rowIndex, hv], hl]
    simp [hv]

theorem mapExcept_rowIndex_error (k : String) (results : List Row)
    (h : ∃ r ∈ results, dictGet r k = none) :
    mapExcept (fun r => rowIndex r k) results = .error .keyError := by
  induction results with
  | nil => simp at h
  | cons r l ih =>
    cases hv : dictGet r k with
    | none => simp [mapExcept, rowIndex, hv]
    | some v =>
      obtain ⟨r', hr', hmiss⟩ := h
      rcases List.mem_cons.mp hr' with rfl | hr'
      · rw [hmiss] at hv; exact absurd hv (by simp)
      · have hl := ih ⟨r', hr', hmiss⟩
        simp only [mapExcept]
        rw [show rowIndex r k = Except.ok v by simp [rowIndex, hv], hl]

theorem mapExcept_rowIndex_cases (k : String) (results : List Row) :
    mapExcept (fun r => rowIndex r k) results = .error .keyError ∨
    ∃ vs, mapExcept (fun r => rowIndex r k) results = .ok vs := by
  induction results with
  | nil => exact Or.inr ⟨[], rfl⟩
  | cons r l ih =>
    cases hv : dictGet r k with
    | none => exact Or.inl (by simp [mapExcept, rowIndex, hv])
    | some v =>
      rcases ih with he | ⟨vs, hvs⟩
      · refine Or.inl ?_
        simp only [mapExcept]
        rw [show rowIndex r k = Except.ok v by simp [rowIndex, hv], he]
      · refine Or.inr ⟨v :: vs, ?_⟩
        simp only [mapExcept]
        rw [show rowIndex r k = Except.ok v by simp [rowIndex, hv], hvs]

/-- C2, counterexample.  The claim states that a returned row lacking a
declared output key contributes no entry for that key and that recording
skips such rows rather than failing.  In the source, recording evaluates
`r[key]`, which raises KeyError on the first row lacking the key: on a
single-row result lacking the declared key "b", recording fails instead
of producing an entry with an empty sequence. -/
theorem c2_counterexample :
    recordStage [[("a", Value.int 1)]] ["b"] = Except.error PyExc.keyError := rfl

/-- C2, amended.  Recording a stage's entry succeeds exactly when every
declared output key is present in every returned row; it then maps each
key to its one-value-per-row column in row order (so all per-key
sequences have the same length, the number of rows), and if some
declared key is absent from some returned row the recording raises
KeyError (propagating as a stage failure) rather than skipping the
row. -/
theorem c2_record_strict (results : List Row) (output_keys : List String) :
    ((∀ k ∈ output_keys, ∀ r ∈ results, (dictGet r k).isSome) →
      recordStage results output_keys =
        .ok (output_keys.map (fun k =>
          (k, results.map (fun r => (dictGet r k).getD .null))))) ∧
    ((∃ k ∈ output_keys, ∃ r ∈ results, dictGet r k = none) →
      recordStage results output_keys = .error .keyError) := by
  constructor
  · intro h
    induction output_keys with
    | nil => rfl
    | cons k ks ih =>
      have hk := mapExcept_rowIndex_ok k results (h k (List.mem_cons_self k ks))
      have hks := ih (fun k' hk' => h k' (List.mem_cons_of_mem _ hk'))
      simp only [recordStage, mapExcept, hk] at hks ⊢
      simp [hks]
  · intro h
    induction output_keys with
    | nil => simp at h
    | cons k ks ih =>
      obtain ⟨k', hk', r', hr', hmiss⟩ := h
      rcases List.mem_cons.mp hk' with rfl | hk'
      · have hk := mapExcept_rowIndex_error k' results ⟨r', hr', hmiss⟩
        simp [recordStage, mapExcept, hk]
      · rcases mapExcept_rowIndex_cases k results with he | ⟨vs, hvs⟩
        · simp [recordStage, mapExcept, he]
        · have hks := ih ⟨k', hk', r', hr', hmiss⟩
          simp only [recordStage, mapExcept, hvs] at hks ⊢
          simp [hks]

/-- C2, witness for the amended theorem: a two-row result with the key
present everywhere records the column in row order, and a result missing
the key in its second row raises KeyError. -/
theorem c2_record_strict_witness :
    recordStage [[("id", Value.int 1)], [("id", Value.int 2)]] ["id"] =
      .ok [("id", [Value.int 1, Value.int 2])] ∧
    recordStage [[("id", Value.int 1)], [("x", Value.int 2)]] ["id"] =
      .error .keyError := by
  constructor
  · have h := (c2_record_strict [[("id", Value.int 1)], [("id", Value.int 2)]] ["id"]).1
      (by decide)
    rw [h]; rfl
  · exact (c2_record_strict [[("id", Value.int 1)], [("x", Value.int 2)]] ["id"]).2
      ⟨"id", by decide, [("x", Value.int 2)], by decide, by decide⟩

/-- Replacement of non-overlapping occurrences of `pat` left to right,
continuing after each replaced segment, on fuel bounded by the text
length (one character is consumed per step).  This is Python's
`str.replace` for non-empty patterns; the empty pattern (never used:
placeholders are non-empty) is left as the identity. -/
def replaceFuel (pat new : List Char) : Nat → List Char → List Char
  | 0, s => s
  | _, [] => []
  | fuel + 1, c :: t =>
    if pat ≠ [] ∧ pat.isPrefixOf (c :: t) then
      new ++ replaceFuel pat new fuel (List.drop (pat.length - 1) t)
    else c :: replaceFuel pat new fuel t

/-- Python `s.replace(old, new)` on strings. -/
def pyStrReplace (s old new : String) : String :=
  (replaceFuel old.toList new.toList s.toList.length s.toList).asString

/-- A document-store query: collection name plus structured filter
(the dict consumed by execute_mongo_query, lines 312–316). -/
structure MongoQuery where
  collection : String
  filter : List (String × Value)
deriving DecidableEq

/-- The executor's `query` local is dynamically typed: a source-text
query (a Python str) or a structured document filter (a Python dict). -/
inductive PyObj where
  | ofStr (s : String)
  | ofDict (q : MongoQuery)
deriving DecidableEq

/-- Python attribute call `query.replace(old, new)`: string replacement
on a str; a dict has no `replace` attribute, so the call raises
AttributeError. -/
def pyReplace : PyObj → String → String → Except PyExc PyObj
  | .ofStr s, old, new => .ok (.ofStr (pyStrReplace s old new))
  | .ofDict _, _, _ => .error .attributeError

/-- Placeholder text `\x7bprevious_stageN.key\x7d` (lines 505 and 512). -/
def placeholderText (prev_stage : Nat) (key : String) : String :=
  "\x7bprevious_stage" ++ toString prev_stage ++ "." ++ key ++ "\x7d"

/-- The placeholder replacement loop of process_query (lines 502–506 and
509–513): for every prior stage and every recorded output key, replace
that placeholder in the `query` local with the Value-Formatter rendering
of the key's value sequence for the stage's database kind. -/
def substPlaceholders (database : String)
    (stage_results : List (Nat × List (String × List Value)))
    (query : PyObj) : Except PyExc PyObj :=
  stage_results.foldlM (fun q pr =>
    pr.2.foldlM (fun q kv =>
      pyReplace q (placeholderText pr.1 kv.1)
        (format_value_for_query (.list kv.2) database)) q) query

/-- Structured-filter branch of process_query (lines 507–514).  The
source sets `query_str = json.dumps(query)` but then runs the
replacement loop on the dict-typed local `query` itself, and finally
executes `query = json.loads(query_str)` on the untouched serialization;
`json.loads(json.dumps(q))` is modelled as `q`. -/
def substituteStructured (database : String)
    (stage_results : List (Nat × List (String × List Value)))
    (query : MongoQuery) : Except PyExc MongoQuery :=
  match substPlaceholders database stage_results (.ofDict query) with
  | .error e => .error e
  | .ok _ => .ok query

/-- C1.  Evaluation of the structured-filter substitution at a failing
input.  With a non-empty Stage Result Table holding one key, the branch
raises AttributeError (the dict-typed `query` has no `replace`), so no
substituted structured query reaches the document adapter; with a stage
entry holding no keys the branch returns the original filter with its
placeholder intact, because the deserialized text is the serialization
taken before any replacement.  By contrast, the same loop on a text
query does rewrite the placeholder, which is what the claim describes. -/
theorem c1_structured_substitution_bug :
    substituteStructured "mongodb" [(1, [("id", [Value.int 1, Value.int 2])])]
      ⟨"movies", [("id", Value.str "\x7bprevious_stage1.id\x7d")]⟩ =
      .error .attributeError ∧
    substituteStructured "mongodb" [(1, [])]
      ⟨"movies", [("id", Value.str "\x7bprevious_stage1.id\x7d")]⟩ =
      .ok ⟨"movies", [("id", Value.str "\x7bprevious_stage1.id\x7d")]⟩ ∧
    substPlaceholders "postgresql" [(1, [("id", [Value.int 1, Value.int 2])])]
      (.ofStr "SELECT * FROM movies m WHERE m.id IN (\x7bprevious_stage1.id\x7d)") =
      .ok (.ofStr "SELECT * FROM movies m WHERE m.id IN (1, 2)") := by
  refine ⟨rfl, rfl, ?_⟩
  rfl

/-- One stage of a generated pipeline (the stage dict read at lines
494–496), with the store-specific query left abstract. -/
structure Stage (Q : Type) where
  stage : Nat
  database : String
  query : Q
  output_keys : List String

/-- Mutable locals of the executor loop of process_query (lines
489–531): the Stage Result Table `stage_results`, the per-stage raw
results dict `final_results`, the loop-carried `results` local (`none`
before its first assignment), and `test_final_results`. -/
structure ExecState where
  stage_results : List (Nat × List (String × List Value))
  final_results : List (String × List Row)
  results? : Option (List Row)
  test_final : Option (List Row)
deriving DecidableEq

/-- Adapter dispatch of process_query (lines 519–524): an if/elif chain
over the three recognized database names with no else branch, so an
unrecognized name leaves the `results` local at its prior value.  The
adapters themselves are abstract (external I/O). -/
def dispatchStage {Q : Type} (pg mg nj : Q → Except PyExc (List Row))
    (database : String) (query : Q) (prev : Option (List Row)) :
    Except PyExc (Option (List Row)) :=
  if database = "postgresql" then (pg query).map some
  else if database = "mongodb" then (mg query).map some
  else if database = "neo4j" then (nj query).map some
  else .ok prev

/-- One iteration of the executor loop after substitution (lines
519–531): dispatch on the database name, then record the Stage Result
Table entry (referencing the `results` local raises UnboundLocalError if
it was never assigned), the raw per-stage entry, and
`test_final_results`. -/
def stageStep {Q : Type} (pg mg nj : Q → Except PyExc (List Row))
    (st : ExecState) (s : Stage Q) : Except PyExc ExecState :=
  match dispatchStage pg mg nj s.database s.query st.results? with
  | .error e => .error e
  | .ok none => .error .unboundLocalError
  | .ok (some rs) =>
    match recordStage rs s.output_keys with
    | .error e => .error e
    | .ok entry =>
      .ok { stage_results := dictInsert st.stage_results s.stage entry,
            final_results := dictInsert st.final_results ("stage_" ++ toString s.stage) rs,
            results? := some rs,
            test_final := some rs }

/-- C9.  A stage whose declared store kind is none of "postgresql",
"mongodb", "neo4j" hits no dedicated error branch: as the first stage
(no prior `results` assignment) the run fails with UnboundLocalError,
not a typed execution failure; after an executed stage, the previous
stage's records are recorded (their projection entering the Stage Result
Table under this stage's number, the records themselves entering the raw
results under this stage's name) and propagated as this stage's
results. -/
theorem c9_unrecognized_store_kind {Q : Type} (pg mg nj : Q → Except PyExc (List Row))
    (st : ExecState) (s : Stage Q) (h1 : s.database ≠ "postgresql")
    (h2 : s.database ≠ "mongodb") (h3 : s.database ≠ "neo4j") :
    (st.results? = none → stageStep pg mg nj st s = .error .unboundLocalError) ∧
    (∀ rs entry, st.results? = some rs → recordStage rs s.output_keys = .ok entry →
      stageStep pg mg nj st s =
        .ok { stage_results := dictInsert st.stage_results s.stage entry,
              final_results := dictInsert st.final_results ("stage_" ++ toString s.stage) rs,
              results? := some rs,
              test_final := some rs }) := by
  have hd : dispatchStage pg mg nj s.database s.query st.results? = .ok st.results? := by
    simp [dispatchStage, h1, h2, h3]
  constructor
  · intro h0
    simp only [stageStep]
    rw [h0] at hd ⊢
    rw [hd]
  · intro rs entry hsome hrec
    simp only [stageStep]
    rw [hsome] at hd ⊢
    rw [hd]
    simp [hrec]

/-- C9, witness: a stage declaring database "mysql" after a stage that
returned one row, and the same stage as the first stage of a run. -/
theorem c9_unrecognized_store_kind_witness :
    stageStep (fun _ : Unit => Except.ok ([] : List Row)) (fun _ => Except.ok [])
        (fun _ => Except.ok [])
        ⟨[(1, [("id", [Value.int 7])])], [("stage_1", [[("id", Value.int 7)]])],
         some [[("id", Value.int 7)]], some [[("id", Value.int 7)]]⟩
        ⟨2, "mysql", (), ["id"]⟩ =
      .ok ⟨[(1, [("id", [Value.int 7])]), (2, [("id", [Value.int 7])])],
           [("stage_1", [[("id", Value.int 7)]]), ("stage_2", [[("id", Value.int 7)]])],
           some [[("id", Value.int 7)]], some [[("id", Value.int 7)]]⟩ ∧
    stageStep (fun _ : Unit => Except.ok ([] : List Row)) (fun _ => Except.ok [])
        (fun _ => Except.ok []) ⟨[], [], none, none⟩ ⟨1, "mysql", (), ["id"]⟩ =
      .error .unboundLocalError := by
  constructor
  · exact (c9_unrecognized_store_kind _ _ _ _ ⟨2, "mysql", (), ["id"]⟩
      (by decide) (by decide) (by decide)).2
      [[("id", Value.int 7)]] [("id", [Value.int 7])] rfl rfl
  · exact (c9_unrecognized_store_kind _ _ _ _ ⟨1, "mysql", (), ["id"]⟩
      (by decide) (by decide) (by decide)).1 rfl

end MeshDB
